import Mathlib

/-!
Verification of the conversational-history manager and the tool-dispatch
helpers described by this repository's documentation.  Message logs are
lists, the keyed store is a function from session keys to lists, and
fallible collaborator calls are embedded with Except / Option.
-/

namespace LangchainSpec

/-- Message roles demonstrated by the notebooks (system, human/user,
assistant/AI, tool). -/
inductive Role where
  | system
  | user
  | assistant
  | tool
  deriving DecidableEq

/-- An immutable message: a role and a text content. -/
structure Msg where
  role : Role
  content : String
  deriving DecidableEq

/-- Modelled from the spec: the Store collaborator, keyed by session key,
holding one ordered message sequence per key (empty for unseen keys).  The
ChatMessageHistory class the notebooks use is not among the files under
src, so the store is taken from the Store contract in the specification. -/
def Store : Type := String → List Msg

/-- The fresh store: every session key maps to the empty sequence. -/
def emptyStore : Store := fun _ => []

/-- Modelled from the spec: append adds the message at the end of the
session sequence for the given key, leaving other sessions untouched. -/
def append (k : String) (m : Msg) (s : Store) : Store :=
  fun q => if q = k then s q ++ [m] else s q

/-- Modelled from the spec: read returns the full ordered sequence for the
session key. -/
def read (s : Store) (k : String) : List Msg := s k

/-- Modelled from the spec: read as a state transformer, returning the
sequence together with the untouched store (read never mutates). -/
def readOp (s : Store) (k : String) : List Msg × Store := (s k, s)

/-- Modelled from the spec: clear discards all messages for the session. -/
def clear (k : String) (s : Store) : Store :=
  fun q => if q = k then [] else s q

/-- Appends a whole list of messages in call order. -/
def appendAll (k : String) (ms : List Msg) (s : Store) : Store :=
  ms.foldl (fun acc m => append k m acc) s

/-- Embedding of trim_messages from the chatbots_memory notebook: if the
stored sequence has at most two messages nothing happens and False is
returned; otherwise the history is cleared and only the last two messages
are re-added, returning True. -/
def trim_messages (l : List Msg) : List Msg × Bool :=
  if l.length ≤ 2 then (l, false) else (l.drop (l.length - 2), true)

/-- Modelled from the spec: truncate(sessionKey, keepLast) keeps only the
last keepLast messages when the sequence is longer than keepLast, and
otherwise is a no-op.  This generalises trim_messages, whose keepLast is
hardcoded to 2 in the notebook. -/
def truncate (n : Nat) (l : List Msg) : List Msg :=
  if l.length ≤ n then l else l.drop (l.length - n)

/-- Embedding of summarize_messages from the chatbots_memory notebook: on
an empty history return False without calling the summarizer; otherwise
call the summarizer on the stored messages, clear the history, add the
summary message, and return True. -/
def summarize_messages (f : List Msg → Msg) (l : List Msg) : List Msg × Bool :=
  if l.length = 0 then (l, false) else ([f l], true)

/-- summarize_messages with a fallible summarizer.  In the notebook the
summarization chain is invoked before clear and add_message run, so an
error from the summarizer aborts the call with the stored list untouched
and the error propagating. -/
def summarizeE (ε : Type) (f : List Msg → Except ε Msg) (l : List Msg) :
    List Msg × Except ε Bool :=
  if l.length = 0 then (l, Except.ok false)
  else
    match f l with
    | Except.error e => (l, Except.error e)
    | Except.ok m => ([m], Except.ok true)

/-- Embedding of the per-turn pattern of the chatbots_memory notebook
(add_user_message, invoke the chain on the whole history, add_ai_message):
append the input, call the model on the full context, append the reply. -/
def runTurn (f : List Msg → Msg) (input : Msg) (l : List Msg) : List Msg :=
  (l ++ [input]) ++ [f (l ++ [input])]

/-- runTurn with a fallible model call.  The request is appended before the
model is invoked, and nothing is rolled back when the call errors. -/
def runTurnE (ε : Type) (f : List Msg → Except ε Msg) (input : Msg)
    (l : List Msg) : List Msg × Except ε Msg :=
  match f (l ++ [input]) with
  | Except.error e => (l ++ [input], Except.error e)
  | Except.ok r => ((l ++ [input]) ++ [r], Except.ok r)

/-- Keyword arguments passed to a tool, as a name-to-integer map. -/
abbrev Args := List (String × Int)

/-- A registered tool: its name and its invocation on keyword arguments.
Invocation is Option-valued: none models a Python error (missing or
rejected arguments). -/
structure Tool where
  name : String
  invoke : Args → Option Int

/-- Embedding of the multiply tool of the notebooks. -/
def multiply : Tool where
  name := "multiply"
  invoke := fun a => do
    let x ← a.lookup ("first_int")
    let y ← a.lookup ("second_int")
    pure (x * y)

/-- Embedding of the add tool of the notebooks. -/
def add : Tool where
  name := "add"
  invoke := fun a => do
    let x ← a.lookup ("first_int")
    let y ← a.lookup ("second_int")
    pure (x + y)

/-- Embedding of the exponentiate tool of the notebooks.  A negative
exponent leaves the integer model (Python would produce a float), so it is
mapped to none. -/
def exponentiate : Tool where
  name := "exponentiate"
  invoke := fun a => do
    let b ← a.lookup ("base")
    let e ← a.lookup ("exponent")
    if e < 0 then none else pure (b ^ e.toNat)

/-- The tools list of the no-function-calling notebook (part_000):
tools = [add, exponentiate, multiply]. -/
def tools_part000 : List Tool := [add, exponentiate, multiply]

/-- The tools list of the parallel tool-calling notebook (part_001):
tools = [multiply, exponentiate, add]. -/
def tools_part001 : List Tool := [multiply, exponentiate, add]

/-- The dict comprehension tool_map keyed by tool name, with the unguarded
indexing of the notebooks embedded as an Option-valued lookup: none is the
KeyError branch. -/
def tool_map (ts : List Tool) (n : String) : Option Tool :=
  ts.find? (fun t => t.name == n)

/-- A model output for tool_chain: a chosen tool name and arguments. -/
structure ModelOutput where
  name : String
  arguments : Args

/-- Embedding of tool_chain from part_000: look the name up in tool_map
(raising KeyError, i.e. none, when absent) and run the chosen tool on the
arguments. -/
def tool_chain (out : ModelOutput) : Option Int :=
  match tool_map tools_part000 out.name with
  | none => none
  | some t => t.invoke out.arguments

/-- One tool call of an AIMessage before execution: name, args, id. -/
structure ToolCallIn where
  name : String
  args : Args
  id : String
  deriving DecidableEq

/-- One tool call after call_tools has run: the same fields plus the
output of the invoked tool. -/
structure ToolCallOut where
  name : String
  args : Args
  id : String
  output : Int
  deriving DecidableEq

/-- Embedding of call_tools from part_001: walk the tool calls in order,
look each name up in tool_map and invoke the tool on the args, storing the
result in the output field; any lookup or invocation error aborts the
whole call (none). -/
def call_tools : List ToolCallIn → Option (List ToolCallOut)
  | [] => some []
  | c :: cs =>
    match tool_map tools_part001 c.name with
    | none => none
    | some t =>
      match t.invoke c.args with
      | none => none
      | some o =>
        match call_tools cs with
        | none => none
        | some rest =>
          some ({ name := c.name, args := c.args, id := c.id, output := o } :: rest)

/-- The opening user message of the memory notebook scenario. -/
def msgNemo : Msg := { role := Role.user, content := "Hi I\x27m Nemo" }

/-- The follow-up user question of the memory notebook scenario. -/
def msgAsk : Msg := { role := Role.user, content := "What\x27s my name?" }

/-- The assistant reply of the memory notebook scenario. -/
def msgReply : Msg := { role := Role.assistant, content := "Your name is Nemo." }

/-- The four concrete tool calls shown in the part_001 notebook output. -/
def demoCalls : List ToolCallIn :=
  [ { name := "multiply", args := [("first_int", 23), ("second_int", 7)],
      id := "call_22tgOrsVLyLMsl2RLbUhtycw" },
    { name := "multiply", args := [("first_int", 5), ("second_int", 18)],
      id := "call_EbKHEG3TjqBhEwb7aoxUtgzf" },
    { name := "add", args := [("first_int", 1000000), ("second_int", 1000000000)],
      id := "call_LUhu2IT3vINxlTc5fCVY6Nhi" },
    { name := "exponentiate", args := [("base", 37), ("exponent", 3)],
      id := "call_bnCZIXelOKkmcyd4uGXId9Ct" } ]

/-- The first component of trim_messages agrees with truncate at keepLast
equal to 2, tying the notebook function to the generalised operation. -/
theorem trim_messages_fst (l : List Msg) : (trim_messages l).1 = truncate 2 l := by
  unfold trim_messages truncate
  by_cases h : l.length ≤ 2 <;> simp [h]

/-- Claim C1: when the stored sequence is longer than keepLast, truncate
replaces it with a length-keepLast suffix of the original (its last
keepLast elements in their original order); when the length is at most
keepLast it is a no-op. -/
theorem truncate_spec (n : Nat) (l : List Msg) :
    (n < l.length →
      (truncate n l).length = n ∧ ∃ p, p ++ truncate n l = l) ∧
    (l.length ≤ n → truncate n l = l) := by
  constructor
  · intro h
    have hle : ¬ l.length ≤ n := Nat.not_le.mpr h
    unfold truncate
    rw [if_neg hle]
    refine ⟨?_, l.take (l.length - n), List.take_append_drop _ _⟩
    rw [List.length_drop]
    omega
  · intro h
    unfold truncate
    rw [if_pos h]

/-- Claim C1 witness: truncate 2 on a four-message session keeps exactly
its last two messages. -/
theorem truncate_spec_witness :
    (truncate 2 [msgNemo, msgAsk, msgReply, msgReply]).length = 2 ∧
    ∃ p, p ++ truncate 2 [msgNemo, msgAsk, msgReply, msgReply] =
      [msgNemo, msgAsk, msgReply, msgReply] :=
  (truncate_spec 2 [msgNemo, msgAsk, msgReply, msgReply]).1 (by decide)

/-- Claim C2: summarize on a non-empty session replaces the whole sequence
with the single message the summarizer returns (so the length becomes 1,
and True is reported); on an empty session it is a no-op reporting False,
and the summarizer is never consulted (the result does not depend on the
summarizer at all). -/
theorem summarize_spec (f : List Msg → Msg) (l : List Msg) :
    (l ≠ [] →
      summarize_messages f l = ([f l], true) ∧
      (summarize_messages f l).1.length = 1) ∧
    (l = [] →
      summarize_messages f l = (l, false) ∧
      ∀ g, summarize_messages g l = summarize_messages f l) := by
  constructor
  · intro h
    have : l.length ≠ 0 := by simpa using h
    unfold summarize_messages
    rw [if_neg this]
    exact ⟨rfl, rfl⟩
  · intro h
    subst h
    exact ⟨rfl, fun g => rfl⟩

/-- Claim C2 witness: summarizing a two-message session yields exactly the
synthetic message, and the empty session stays empty. -/
theorem summarize_spec_witness :
    summarize_messages (fun _ => msgReply) [msgNemo, msgAsk] = ([msgReply], true) ∧
    (summarize_messages (fun _ => msgReply) [msgNemo, msgAsk]).1.length = 1 :=
  (summarize_spec (fun _ => msgReply) [msgNemo, msgAsk]).1 (by decide)

/-- Claim C3: if the summarizer errors on a non-empty session, summarize
leaves the stored sequence exactly as it was and propagates the error to
the caller. -/
theorem summarizeE_error (ε : Type) (f : List Msg → Except ε Msg)
    (l : List Msg) (e : ε) (hne : l ≠ []) (h : f l = Except.error e) :
    summarizeE ε f l = (l, Except.error e) := by
  have : l.length ≠ 0 := by simpa using hne
  unfold summarizeE
  rw [if_neg this, h]

/-- Claim C3 witness: a failing summarizer on a one-message session leaves
the message in place and surfaces the error. -/
theorem summarizeE_error_witness :
    summarizeE Unit (fun _ => Except.error ()) [msgNemo] =
      ([msgNemo], Except.error ()) :=
  summarizeE_error Unit (fun _ => Except.error ()) [msgNemo] () (by decide) rfl

/-- Claim C4: a turn with no compaction appends the input message and then
the model response, in that order, to the prior history; in particular the
Nemo scenario of the notebook produces exactly its three-message log. -/
theorem runTurn_spec :
    (∀ (f : List Msg → Msg) (input : Msg) (H : List Msg),
        runTurn f input H = H ++ [input, f (H ++ [input])]) ∧
    runTurn (fun _ => msgReply) msgAsk [msgNemo] = [msgNemo, msgAsk, msgReply] := by
  constructor
  · intro f input H
    simp [runTurn]
  · rfl

/-- Claim C5 counterexample: with an empty prior history and a failing
model call, the post-state of the turn holds the request message alone —
it is neither the pre-turn state nor a completed request/response pair, so
the turn pattern of the notebook does leave an intermediate state. -/
theorem runTurn_atomic_cex :
    (runTurnE Unit (fun _ => Except.error ()) msgAsk []).2 = Except.error () ∧
    (runTurnE Unit (fun _ => Except.error ()) msgAsk []).1 ≠ ([] : List Msg) ∧
    ¬ ∃ r : Msg, (runTurnE Unit (fun _ => Except.error ()) msgAsk []).1 =
      [msgAsk, r] := by
  refine ⟨rfl, by decide, ?_⟩
  rintro ⟨r, hr⟩
  have : ([msgAsk] : List Msg) = [msgAsk, r] := hr
  simp at this

/-- Claim C5 (amended): the notebook turn pattern appends the request
before invoking the model and performs no rollback, so when the model call
fails the stored sequence is the pre-turn sequence with the request
appended and no response, and the error is propagated. -/
theorem runTurnE_error_state (ε : Type) (f : List Msg → Except ε Msg)
    (input : Msg) (l : List Msg) (e : ε)
    (h : f (l ++ [input]) = Except.error e) :
    runTurnE ε f input l = (l ++ [input], Except.error e) := by
  unfold runTurnE
  rw [h]

/-- Claim C5 witness: a turn whose model call always fails, run on a
one-message history, ends with exactly the history plus the request. -/
theorem runTurnE_error_state_witness :
    runTurnE Unit (fun _ => Except.error ()) msgAsk [msgNemo] =
      ([msgNemo] ++ [msgAsk], Except.error ()) :=
  runTurnE_error_state Unit (fun _ => Except.error ()) msgAsk [msgNemo] () rfl

/-- Reading a session after appending a list of messages yields the old
contents followed by those messages in call order. -/
theorem appendAll_read (k : String) (ms : List Msg) (s : Store) :
    read (appendAll k ms s) k = read s k ++ ms := by
  induction ms generalizing s with
  | nil => simp [appendAll, read]
  | cons m tail ih =>
    have step : appendAll k (m :: tail) s = appendAll k tail (append k m s) := rfl
    rw [step, ih]
    simp [read, append]

/-- Claim C6: on a fresh session, read returns exactly the appended
messages in call order; read of an unseen key returns the empty sequence;
and read never mutates the store (the state-transformer form returns the
store unchanged, so two successive reads agree). -/
theorem append_read_spec :
    (∀ (k : String) (ms : List Msg), read (appendAll k ms emptyStore) k = ms) ∧
    (∀ k : String, read emptyStore k = []) ∧
    (∀ (s : Store) (k : String),
        (readOp s k).2 = s ∧ (readOp s k).1 = read s k ∧
        read (readOp s k).2 k = read s k) := by
  refine ⟨?_, fun k => rfl, fun s k => ⟨rfl, rfl, rfl⟩⟩
  intro k ms
  rw [appendAll_read]
  rfl

/-- Claim C7: clear empties the session, and clearing twice equals
clearing once (idempotence). -/
theorem clear_idem :
    (∀ (s : Store) (k : String), read (clear k s) k = []) ∧
    (∀ (s : Store) (k : String), clear k (clear k s) = clear k s) := by
  constructor
  · intro s k
    simp [read, clear]
  · intro s k
    funext q
    by_cases h : q = k <;> simp [clear, h]

/-- tool_map finds a tool exactly when the requested name is among the
registered tool names. -/
theorem tool_map_isSome (ts : List Tool) (n : String) :
    (tool_map ts n).isSome ↔ n ∈ ts.map Tool.name := by
  unfold tool_map
  rw [List.find?_isSome]
  constructor
  · rintro ⟨t, ht, hb⟩
    have : t.name = n := by simpa using hb
    exact this ▸ List.mem_map_of_mem Tool.name ht
  · rintro hmem
    rcases List.mem_map.mp hmem with ⟨t, ht, hn⟩
    exact ⟨t, ht, by simp [hn]⟩

/-- When tool_map returns a tool, that tool carries the requested name. -/
theorem tool_map_name (ts : List Tool) (n : String) (t : Tool)
    (h : tool_map ts n = some t) : t.name = n := by
  have := List.find?_some h
  simpa using this

/-- Claim C9: dispatch is partial on the tool name.  For the no-function-
calling notebook and the parallel tool-calling notebook alike, the
tool_map lookup succeeds exactly when the name is one of the registered
tool names, and the tool it selects carries the requested name; for the
unregistered name subtract, tool_chain hits the KeyError branch. -/
theorem tool_dispatch_partial :
    (∀ n : String,
        ((tool_map tools_part000 n).isSome ↔
          (n = "add" ∨ n = "exponentiate" ∨ n = "multiply")) ∧
        ∀ t, tool_map tools_part000 n = some t → t.name = n) ∧
    tool_chain { name := "subtract", arguments := [] } = none ∧
    (∀ n : String,
        (tool_map tools_part001 n).isSome ↔
          (n = "multiply" ∨ n = "exponentiate" ∨ n = "add")) := by
  refine ⟨fun n => ⟨?_, fun t ht => tool_map_name _ _ _ ht⟩, rfl, fun n => ?_⟩
  · rw [tool_map_isSome]
    have : tools_part000.map Tool.name = ["add", "exponentiate", "multiply"] := rfl
    rw [this]
    simp [eq_comm]
  · rw [tool_map_isSome]
    have : tools_part001.map Tool.name = ["multiply", "exponentiate", "add"] := rfl
    rw [this]
    simp [eq_comm]

/-- Claim C9 witness: at the concrete names multiply and subtract the
dispatch characterisation evaluates as expected. -/
theorem tool_dispatch_partial_witness :
    ((tool_map tools_part000 "multiply").isSome ↔
      ("multiply" = "add" ∨ "multiply" = "exponentiate" ∨
        "multiply" = "multiply")) ∧
    ∀ t, tool_map tools_part000 "multiply" = some t → t.name = "multiply" :=
  tool_dispatch_partial.1 "multiply"

/-- Claim C10 counterexample: a tool-call list whose single call names the
registered tool multiply but carries no arguments makes call_tools fail
(Python raises a validation error), so no output list exists even though
every name is registered — the claim as stated is false at this input. -/
theorem call_tools_cex :
    (∀ c ∈ ([{ name := "multiply", args := [], id := "z" }] : List ToolCallIn),
        (tool_map tools_part001 c.name).isSome) ∧
    ¬ ∃ outs,
        call_tools [{ name := "multiply", args := [], id := "z" }] = some outs := by
  constructor
  · intro c hc
    fin_cases hc
    rfl
  · rintro ⟨outs, houts⟩
    have : (none : Option (List ToolCallOut)) = some outs := houts
    simp at this

/-- Claim C10 (amended): for every tool-call list whose names are all
registered and whose arguments are accepted by the named tool, call_tools
returns a list with exactly one entry per call, in order, each keeping the
original name, args and id and carrying as output the named tool applied
to its args. -/
theorem call_tools_spec (calls : List ToolCallIn)
    (h : ∀ c ∈ calls, ∃ t, tool_map tools_part001 c.name = some t ∧
        (t.invoke c.args).isSome) :
    ∃ outs, call_tools calls = some outs ∧ outs.length = calls.length ∧
      List.Forall₂
        (fun (c : ToolCallIn) (o : ToolCallOut) =>
          o.name = c.name ∧ o.args = c.args ∧ o.id = c.id ∧
          ∃ t, tool_map tools_part001 c.name = some t ∧
            t.invoke c.args = some o.output)
        calls outs := by
  induction calls with
  | nil => exact ⟨[], rfl, rfl, List.Forall₂.nil⟩
  | cons c cs ih =>
    obtain ⟨t, ht, hinv⟩ := h c (List.mem_cons_self _ _)
    obtain ⟨o, ho⟩ := Option.isSome_iff_exists.mp hinv
    obtain ⟨outs, houts, hlen, hall⟩ :=
      ih (fun d hd => h d (List.mem_cons_of_mem _ hd))
    refine ⟨{ name := c.name, args := c.args, id := c.id, output := o } :: outs,
      ?_, by simpa using hlen, ?_⟩
    · show call_tools (c :: cs) = _
      simp [call_tools, ht, ho, houts]
    · exact List.Forall₂.cons ⟨rfl, rfl, rfl, t, ht, ho⟩ hall

/-- Claim C10 witness: the four tool calls shown in the notebook output
all dispatch and execute, producing one output per call in order. -/
theorem call_tools_spec_witness :
    ∃ outs, call_tools demoCalls = some outs ∧ outs.length = demoCalls.length ∧
      List.Forall₂
        (fun (c : ToolCallIn) (o : ToolCallOut) =>
          o.name = c.name ∧ o.args = c.args ∧ o.id = c.id ∧
          ∃ t, tool_map tools_part001 c.name = some t ∧
            t.invoke c.args = some o.output)
        demoCalls outs :=
  call_tools_spec demoCalls (by
    intro c hc
    fin_cases hc
    · exact ⟨multiply, rfl, rfl⟩
    · exact ⟨multiply, rfl, rfl⟩
    · exact ⟨add, rfl, rfl⟩
    · exact ⟨exponentiate, rfl, rfl⟩)

end LangchainSpec
